import Mathlib

/-!
# Furniture catalog: selection & render coordinator, shallow embedding

A shallow embedding of `src/app.js`: the in-memory application state
(catalog list, compare set, cart set, active filter), the user-facing
mutation entry points (`toggleComparisonItem`, `toggleCartItem`,
`handleCategoryFilterClick`, `clearComparisons`, `clearCart`), the render
pipeline (`renderGalleryGrid` / `buildCardElement`), the comparison modal
(`openComparisonModal` / `generateComparisonTableHTML`), the cart total
(`calculateCartTotal`), and cart persistence (the `JSON.stringify` write in
`toggleCartItem` and the `JSON.parse` restore in `fetchCatalogData`).

JavaScript `Set` values iterate in insertion order, so both selection sets
are embedded as duplicate-free `List Nat` values in insertion order, with
`Set.has` / `Set.add` / `Set.delete` embedded as `jsSetHas` / `jsSetAdd` /
`jsSetDelete`.  JavaScript object identity (the `===` used by
`Array.prototype.indexOf`) is embedded as a `ref : Nat` field on each item:
two items at different catalog positions always carry different `ref`s
after a load, even when all their content fields coincide.
-/

namespace FurnitureCatalog

/-- The `dimensions` sub-record of a catalog item (`item.dimensions` in
`app.js`): three free-form text fields. -/
structure Dimensions where
  width : String
  depth_length : String
  height : String
deriving DecidableEq, Repr

/-- A catalog item as loaded from `data.yaml`.  The `ref` field embeds
JavaScript object identity: each entry of the parsed YAML list is a fresh
object, so the loaded catalog has pairwise-distinct `ref`s.  All other
fields are the content fields read by `app.js`. -/
structure Item where
  ref : Nat
  product_name : String
  category : String
  price : String
  dimensions : Dimensions
  main_image_url : String
  url : String
deriving DecidableEq, Repr

/-- Embeds `CONFIG.MAX_COMPARE_ITEMS` from `app.js`. -/
def MAX_COMPARE_ITEMS : Nat := 3

/-- The `state` object of `app.js`: catalog, the two selection sets (as
insertion-ordered duplicate-free lists), and the active filter. -/
structure AppState where
  catalogItems : List Item
  compareIndices : List Nat
  cartIndices : List Nat
  activeFilter : String
deriving DecidableEq, Repr

/-- JavaScript `Set.prototype.has`. -/
def jsSetHas (s : List Nat) (x : Nat) : Bool := s.contains x

/-- JavaScript `Set.prototype.add`: a no-op when the element is present,
otherwise appends it (insertion order). -/
def jsSetAdd (s : List Nat) (x : Nat) : List Nat :=
  if jsSetHas s x then s else s ++ [x]

/-- JavaScript `Set.prototype.delete`: removes the element, preserving the
relative order of the rest. -/
def jsSetDelete (s : List Nat) (x : Nat) : List Nat :=
  s.filter (fun y => y != x)

/-- Embeds `toggleComparisonItem` from `app.js` (lines 178-200), restricted to its
effect on `state.compareIndices`.  `checked` is the checkbox state after
the user's click: when checked the code first enforces the
`MAX_COMPARE_ITEMS` capacity bound, rejecting the insert (and unchecking
the box) when the set is already full; when unchecked it deletes. -/
def toggleComparisonItem (checked : Bool) (itemIndex : Nat)
    (compareIndices : List Nat) : List Nat :=
  if checked then
    if MAX_COMPARE_ITEMS ≤ compareIndices.length then compareIndices
    else jsSetAdd compareIndices itemIndex
  else jsSetDelete compareIndices itemIndex

/-- A user toggle of the compare checkbox for identity `itemIndex`: the
checkbox flips, and the rendered checkbox state mirrors membership in
`state.compareIndices` (it is rendered `checked` exactly when the identity
is in the set), so after the click `checked` is the negation of current
membership. -/
def toggleCompare (itemIndex : Nat) (compareIndices : List Nat) : List Nat :=
  toggleComparisonItem (!(jsSetHas compareIndices itemIndex)) itemIndex compareIndices

/-- Embeds `toggleCartItem` from `app.js` (lines 219-237), restricted to its effect
on `state.cartIndices`: delete when present, add when absent. -/
def toggleCartSet (itemIndex : Nat) (cartIndices : List Nat) : List Nat :=
  if jsSetHas cartIndices itemIndex then jsSetDelete cartIndices itemIndex
  else jsSetAdd cartIndices itemIndex

/-- Embeds `handleCategoryFilterClick` from `app.js` (lines 162-176), restricted to
its effect on `state`: it overwrites `state.activeFilter` with the clicked
button's filter tag and re-renders (rendering reads but never writes the
state). -/
def setFilter (tag : String) (st : AppState) : AppState :=
  { st with activeFilter := tag }

/-- Embeds `clearComparisons` from `app.js` (lines 202-213), restricted to its
effect on `state`: empties `state.compareIndices`; the rest of the function
only updates DOM classes and checkboxes. -/
def clearComparisons (st : AppState) : AppState :=
  { st with compareIndices := [] }

/-- Embeds `clearCart` from `app.js` (lines 239-251), restricted to its effect on
`state` and on the persisted `catalog-cart` record: empties
`state.cartIndices` and removes the record (second component `none`). -/
def clearCart (st : AppState) : AppState × Option String :=
  ({ st with cartIndices := [] }, none)

/-- The visible subset computed by `renderGalleryGrid` (`app.js` lines
338-343): the whole catalog when the filter is `"all"`, otherwise the items
whose `category` equals the active filter, in original order. -/
def visibleData (catalogItems : List Item) (activeFilter : String) : List Item :=
  if activeFilter = "all" then catalogItems
  else catalogItems.filter (fun item => item.category == activeFilter)

/-- Embeds `state.catalogItems.indexOf(item)` from `buildCardElement` (`app.js` line
365).  `Array.prototype.indexOf` compares with `===`, which on objects is
reference identity, embedded by the `ref` field; it scans front to back and
returns the first match.  JavaScript returns `-1` when the reference is
absent; since every later use of the result (`Set.has`, `data-index`)
treats `-1` as an identity matching nothing, absence is embedded as
`none`. -/
def jsIndexOf (catalogItems : List Item) (item : Item) : Option Nat :=
  catalogItems.findIdx? (fun x => x.ref == item.ref)

/-- The observable content of one rendered card (`buildCardElement`,
`app.js` lines 362-400): the `data-index` identity attached to the compare
checkbox and the cart button, the compare `selected` marker, the cart
marker and button label, and the displayed title and price. -/
structure Card where
  dataIndex : Option Nat
  selected : Bool
  inCart : Bool
  cartLabel : String
  title : String
  price : String
deriving DecidableEq, Repr

/-- Embeds `buildCardElement` from `app.js` (lines 362-400): resolves the item's
stable identity with `indexOf` on the original collection and tags the
card's controls with it; the compare and cart markers read the two
selection sets at that identity. -/
def buildCardElement (st : AppState) (item : Item) : Card :=
  match jsIndexOf st.catalogItems item with
  | some originalIndex =>
    { dataIndex := some originalIndex
      selected := jsSetHas st.compareIndices originalIndex
      inCart := jsSetHas st.cartIndices originalIndex
      cartLabel :=
        if jsSetHas st.cartIndices originalIndex then "Remove from Cart"
        else "Add to Cart"
      title := item.product_name
      price := item.price }
  | none =>
    { dataIndex := none
      selected := false
      inCart := false
      cartLabel := "Add to Cart"
      title := item.product_name
      price := item.price }

/-- Embeds `renderGalleryGrid` from `app.js` (lines 333-356): computes the visible
subset for the active filter and builds one card per visible item, in
order. -/
def renderGalleryGrid (st : AppState) : List Card :=
  (visibleData st.catalogItems st.activeFilter).map (buildCardElement st)

/-- Embeds `Array.from(state.compareIndices).map(idx => state.catalogItems[idx])`
in `openComparisonModal` (`app.js` lines 437-439): positional lookup of
each selected identity in the original collection, in the set's insertion
order.  An out-of-range identity gives `undefined` in JavaScript, on which
the subsequent rendering throws; that failure is embedded as `none`. -/
def lookupSelected (catalogItems : List Item) : List Nat → Option (List Item)
  | [] => some []
  | idx :: rest =>
    match catalogItems[idx]?, lookupSelected catalogItems rest with
    | some item, some items => some (item :: items)
    | _, _ => none

/-- The observable content of the comparison table produced by
`generateComparisonTableHTML`: one list per field row, each holding one
cell per compared item, left to right. -/
structure CompareTable where
  headers : List String
  prices : List String
  widths : List String
  depths : List String
  heights : List String
  links : List String
deriving DecidableEq, Repr

/-- Embeds `generateComparisonTableHTML` from `app.js` (lines 455-503): for an
empty selection it returns the empty markup (embedded as `none`);
otherwise each field row maps over the compared items in the given
order. -/
def generateComparisonTableHTML (itemsToCompare : List Item) : Option CompareTable :=
  if itemsToCompare.isEmpty then none
  else some
    { headers := itemsToCompare.map Item.product_name
      prices := itemsToCompare.map Item.price
      widths := itemsToCompare.map (fun i => i.dimensions.width)
      depths := itemsToCompare.map (fun i => i.dimensions.depth_length)
      heights := itemsToCompare.map (fun i => i.dimensions.height)
      links := itemsToCompare.map Item.url }

/-- Embeds `openComparisonModal` from `app.js` (lines 432-443): maps the selected
identities back to the data objects by positional lookup into
`state.catalogItems` and renders the comparison table from them. -/
def openComparisonModal (st : AppState) : Option CompareTable :=
  match lookupSelected st.catalogItems st.compareIndices with
  | some selectedObjects => generateComparisonTableHTML selectedObjects
  | none => none

/-- Value of a digit character (`'0'` to `'9'`). -/
def digitVal (c : Char) : Nat := c.toNat - 48

/-- Numeric value of a digit string, most significant digit first. -/
def charsVal (l : List Char) : Nat :=
  l.foldl (fun a c => a * 10 + digitVal c) 0

/-- JavaScript `parseFloat`, restricted to the alphabet that reaches it in
`calculateCartTotal` (digits and dots, every other character having been
stripped): it takes the longest prefix of the form `digits`,
`digits.digits`, or `.digits`, returning `none` for `NaN` (no such
non-empty prefix).  The numeric value is exact here, as a rational; every
price the catalog can produce in this range is exactly representable, so
no double-rounding is observable. -/
def parseFloat (s : String) : Option ℚ :=
  let ds := s.data.takeWhile Char.isDigit
  let rest := s.data.dropWhile Char.isDigit
  match rest with
  | '.' :: rest2 =>
    let fs := rest2.takeWhile Char.isDigit
    if ds.isEmpty && fs.isEmpty then none
    else some ((charsVal ds : ℚ) + (charsVal fs : ℚ) / (10 : ℚ) ^ fs.length)
  | _ => if ds.isEmpty then none else some ((charsVal ds : ℚ))

/-- The `item.price.replace(/[^0-9.]/g, "")` step of `calculateCartTotal`
(`app.js` line 312): strips every character that is not a digit or a
dot. -/
def cleanPriceStr (price : String) : String :=
  String.mk (price.data.filter (fun c => c.isDigit || c == '.'))

/-- Embeds `calculateCartTotal` from `app.js` (lines 308-322), up to the final
currency formatting (an `Intl.NumberFormat` call on the number): cleans
each price, parses it with `parseFloat`, and sums, an unparsable (`NaN`)
price contributing zero. -/
def calculateCartTotal (items : List Item) : ℚ :=
  items.foldl
    (fun sum item =>
      match parseFloat (cleanPriceStr item.price) with
      | some parsedFloat => sum + parsedFloat
      | none => sum + 0)
    0

/-- Character of a digit value (`0` to `9`). -/
def digitChar (n : Nat) : Char := Char.ofNat (48 + n)

/-- Decimal digit characters of `n`, most significant first, with explicit
fuel (any fuel at least `n` suffices, since `n / 10 < n` for positive
`n`). -/
def natCharsAux : Nat → Nat → List Char
  | 0, _ => []
  | fuel + 1, n =>
    if n = 0 then []
    else natCharsAux fuel (n / 10) ++ [digitChar (n % 10)]

/-- Decimal rendering of a natural number, as `JSON.stringify` renders a
nonnegative integer. -/
def natChars (n : Nat) : List Char :=
  if n = 0 then ['0'] else natCharsAux n n

/-- The comma-separated element list inside `JSON.stringify`'s rendering of
an array of nonnegative integers. -/
def cartChars : List Nat → List Char
  | [] => []
  | [n] => natChars n
  | n :: rest => natChars n ++ ',' :: cartChars rest

/-- Embeds `JSON.stringify(Array.from(state.cartIndices))` from `toggleCartItem`
(`app.js` lines 232-235): `Array.from` lists the set in insertion order,
and `JSON.stringify` renders the array, e.g. `[1,5]` (no whitespace). -/
def serializeCart (cartIndices : List Nat) : String :=
  String.mk ('[' :: cartChars cartIndices ++ [']'])

/-- Embeds `toggleCartItem` from `app.js` (lines 219-237) together with its persistence
write: toggles the identity in the cart set and writes the full serialized
new set under the `catalog-cart` key (the second component). -/
def toggleCartItem (itemIndex : Nat) (st : AppState) : AppState × String :=
  let st2 := { st with cartIndices := toggleCartSet itemIndex st.cartIndices }
  (st2, serializeCart st2.cartIndices)

/-- Element-list parser for `JSON.parse` on the documents this application
writes: a non-empty comma-separated list of decimal naturals followed by
the closing bracket.  Fuel-indexed for structural recursion; fuel at least
the input length suffices, since each step consumes at least one
character. -/
def parseItems : Nat → List Char → Option (List Nat)
  | 0, _ => none
  | fuel + 1, l =>
    let ds := l.takeWhile Char.isDigit
    let rest := l.dropWhile Char.isDigit
    if ds.isEmpty then none
    else
      match rest with
      | c :: rest2 =>
        if c = ']' then (if rest2 = [] then some [charsVal ds] else none)
        else if c = ',' then (parseItems fuel rest2).map (fun t => charsVal ds :: t)
        else none
      | [] => none

/-- Embeds `JSON.parse` of the persisted `catalog-cart` value, specialized to the
grammar this application ever writes: an array of nonnegative decimal
integers, `[]` or `[n,n,...]`.  Any other document is embedded as `none`,
which covers both a `JSON.parse` exception (caught, cart left empty) and a
successful parse of a non-array (the `Array.isArray` guard fails, cart
left empty) — the two cases are observationally identical in
`fetchCatalogData`. -/
def parseCart (s : String) : Option (List Nat) :=
  match s.data with
  | c :: rest =>
    if c = '[' then
      (if rest = [']'] then some [] else parseItems rest.length rest)
    else none
  | [] => none

/-- Embeds `new Set(parsed)` on a parsed array: inserts left to right, so the
result is the input with later duplicates dropped, in first-occurrence
order. -/
def setFromList (l : List Nat) : List Nat := l.foldl jsSetAdd []

/-- The cart-restore step of `fetchCatalogData` (`app.js` lines 80-91):
reads the persisted `catalog-cart` value (or `none` when absent), parses
it, and replaces the (initially empty) cart set with the parsed array's
elements; absence, a parse error, or a non-array all leave the cart
empty. -/
def restoreCart (savedCart : Option String) : List Nat :=
  match savedCart with
  | none => []
  | some s =>
    match parseCart s with
    | some parsed => setFromList parsed
    | none => []

/-- A session's worth of compare-checkbox toggles, applied left to right
starting from the empty compare set of a fresh load. -/
def runToggles (ops : List Nat) : List Nat :=
  ops.foldl (fun s itemIndex => toggleCompare itemIndex s) []

/-- A sequence of filter-button clicks, applied left to right. -/
def applyFilters (tags : List String) (st : AppState) : AppState :=
  tags.foldl (fun s tag => setFilter tag s) st

/-- Dimensions shared by the demonstration items. -/
def demoDims : Dimensions := { width := "80", depth_length := "35", height := "30" }

/-- Demonstration item A: a sofa priced `$1,000.00` (its thousands
separator exercises the price-cleaning step). -/
def itemA : Item :=
  { ref := 0, product_name := "Apollo Sofa", category := "sofa",
    price := "$1,000.00", dimensions := demoDims,
    main_image_url := "a.jpg", url := "https://example.com/a" }

/-- Demonstration item B: a chair. -/
def itemB : Item :=
  { ref := 1, product_name := "Beacon Chair", category := "chair",
    price := "$500.00", dimensions := demoDims,
    main_image_url := "b.jpg", url := "https://example.com/b" }

/-- Demonstration item C: a second sofa. -/
def itemC : Item :=
  { ref := 2, product_name := "Cosmos Sofa", category := "sofa",
    price := "$300.00", dimensions := demoDims,
    main_image_url := "c.jpg", url := "https://example.com/c" }

/-- An item priced as a range: after the `[^0-9.]` strip the two range
endpoints are mashed into one digit string. -/
def itemRange : Item :=
  { ref := 3, product_name := "Borealis Sectional", category := "sofa",
    price := "$2,299 - $3,099", dimensions := demoDims,
    main_image_url := "d.jpg", url := "https://example.com/d" }

/-- An item content-identical to `itemA` but a distinct loaded object
(distinct `ref`): the duplicate-content case of the identity claims. -/
def itemTwin : Item := { itemA with ref := 2 }

/-- The three-item demonstration catalog of the specification's concrete
scenario. -/
def demoCatalog : List Item := [itemA, itemB, itemC]

/-- Demonstration state: sofa filter active, compare set holding the
identities 0 and 2 in that insertion order. -/
def demoState : AppState :=
  { catalogItems := demoCatalog, compareIndices := [0, 2],
    cartIndices := [], activeFilter := "sofa" }

/-- A catalog whose first and third entries are content-identical distinct
objects. -/
def dupCatalog : List Item := [itemA, itemB, itemTwin]

/-- State over `dupCatalog` with everything else at its load defaults. -/
def dupState : AppState :=
  { catalogItems := dupCatalog, compareIndices := [],
    cartIndices := [], activeFilter := "all" }

/-- A freshly loaded state over the demonstration catalog: both selection
sets empty, filter `"all"`. -/
def loadState : AppState :=
  { catalogItems := demoCatalog, compareIndices := [],
    cartIndices := [], activeFilter := "all" }

/-! ## Set-operation lemmas -/

theorem jsSetHas_iff {s : List Nat} {x : Nat} : jsSetHas s x = true ↔ x ∈ s := by
  simp [jsSetHas, List.contains, List.elem_iff]

theorem jsSetHas_eq_false {s : List Nat} {x : Nat} :
    jsSetHas s x = false ↔ x ∉ s := by
  rw [← jsSetHas_iff]
  cases jsSetHas s x <;> simp

theorem jsSetAdd_of_mem {s : List Nat} {x : Nat} (h : x ∈ s) :
    jsSetAdd s x = s := by
  simp [jsSetAdd, jsSetHas_iff.mpr h]

theorem jsSetAdd_of_not_mem {s : List Nat} {x : Nat} (h : x ∉ s) :
    jsSetAdd s x = s ++ [x] := by
  simp [jsSetAdd, jsSetHas_eq_false.mpr h]

theorem jsSetDelete_of_not_mem {s : List Nat} {x : Nat} (h : x ∉ s) :
    jsSetDelete s x = s := by
  rw [jsSetDelete, List.filter_eq_self]
  intro a ha
  simp only [bne_iff_ne, ne_eq]
  exact fun e => h (e ▸ ha)

theorem jsSetDelete_eq_erase {s : List Nat} (hnd : s.Nodup) (x : Nat) :
    jsSetDelete s x = s.erase x :=
  (List.Nodup.erase_eq_filter hnd x).symm

theorem mem_jsSetDelete {s : List Nat} {x y : Nat} :
    y ∈ jsSetDelete s x ↔ y ∈ s ∧ y ≠ x := by
  simp [jsSetDelete, List.mem_filter]

theorem not_mem_jsSetDelete {s : List Nat} {x : Nat} : x ∉ jsSetDelete s x := by
  simp [mem_jsSetDelete]

theorem length_jsSetDelete_le (s : List Nat) (x : Nat) :
    (jsSetDelete s x).length ≤ s.length :=
  List.length_filter_le _ s

theorem length_jsSetDelete_of_mem {s : List Nat} {x : Nat}
    (hnd : s.Nodup) (h : x ∈ s) :
    (jsSetDelete s x).length = s.length - 1 := by
  rw [jsSetDelete_eq_erase hnd]
  exact List.length_erase_of_mem h

theorem nodup_jsSetAdd {s : List Nat} (hnd : s.Nodup) (x : Nat) :
    (jsSetAdd s x).Nodup := by
  by_cases h : x ∈ s
  · rw [jsSetAdd_of_mem h]; exact hnd
  · rw [jsSetAdd_of_not_mem h]
    exact ((List.perm_append_singleton x s).nodup_iff).mpr (List.Nodup.cons h hnd)

theorem nodup_jsSetDelete {s : List Nat} (hnd : s.Nodup) (x : Nat) :
    (jsSetDelete s x).Nodup :=
  List.Nodup.filter _ hnd

/-! ## Compare-toggle lemmas -/

theorem toggleCompare_of_mem {s : List Nat} {id : Nat} (h : id ∈ s) :
    toggleCompare id s = jsSetDelete s id := by
  simp [toggleCompare, toggleComparisonItem, jsSetHas_iff.mpr h]

theorem toggleCompare_of_not_mem_of_lt {s : List Nat} {id : Nat}
    (h : id ∉ s) (hl : s.length < MAX_COMPARE_ITEMS) :
    toggleCompare id s = s ++ [id] := by
  simp [toggleCompare, toggleComparisonItem, jsSetHas_eq_false.mpr h,
    Nat.not_le.mpr hl, jsSetAdd_of_not_mem h]

theorem toggleCompare_reject {s : List Nat} {id : Nat}
    (h : id ∉ s) (hl : MAX_COMPARE_ITEMS ≤ s.length) :
    toggleCompare id s = s := by
  simp [toggleCompare, toggleComparisonItem, jsSetHas_eq_false.mpr h, hl]

theorem length_toggleCompare_le {s : List Nat} (id : Nat)
    (hl : s.length ≤ MAX_COMPARE_ITEMS) :
    (toggleCompare id s).length ≤ MAX_COMPARE_ITEMS := by
  by_cases hm : id ∈ s
  · rw [toggleCompare_of_mem hm]
    exact le_trans (length_jsSetDelete_le s id) hl
  · rcases Nat.lt_or_ge s.length MAX_COMPARE_ITEMS with hlt | hge
    · rw [toggleCompare_of_not_mem_of_lt hm hlt]
      simpa using hlt
    · rw [toggleCompare_reject hm hge]
      exact hl

theorem length_runToggles_le (ops : List Nat) :
    (runToggles ops).length ≤ MAX_COMPARE_ITEMS := by
  suffices h : ∀ (ops : List Nat) (s : List Nat), s.length ≤ MAX_COMPARE_ITEMS →
      (ops.foldl (fun s itemIndex => toggleCompare itemIndex s) s).length ≤
        MAX_COMPARE_ITEMS by
    exact h ops [] (by simp [MAX_COMPARE_ITEMS])
  intro ops
  induction ops with
  | nil => intro s hs; simpa using hs
  | cons op rest ih =>
    intro s hs
    exact ih _ (length_toggleCompare_le op hs)

/-! ## Frame lemmas for filter changes -/

theorem applyFilters_fields (tags : List String) (st : AppState) :
    (applyFilters tags st).catalogItems = st.catalogItems ∧
    (applyFilters tags st).compareIndices = st.compareIndices ∧
    (applyFilters tags st).cartIndices = st.cartIndices := by
  induction tags generalizing st with
  | nil => exact ⟨rfl, rfl, rfl⟩
  | cons t rest ih =>
    have h := ih (setFilter t st)
    simp only [applyFilters, List.foldl_cons] at h ⊢
    exact h

theorem buildCardElement_congr {s1 s2 : AppState} (item : Item)
    (h1 : s1.catalogItems = s2.catalogItems)
    (h2 : s1.compareIndices = s2.compareIndices)
    (h3 : s1.cartIndices = s2.cartIndices) :
    buildCardElement s1 item = buildCardElement s2 item := by
  simp only [buildCardElement, jsIndexOf, jsSetHas, h1, h2, h3]

/-! ## Claim theorems (capacity, filtering, frame) -/

/-- C2: starting from the empty compare set of a fresh load, no sequence of
`toggleCompare` calls ever pushes the compare set past
`MAX_COMPARE_ITEMS = 3`, and a toggle of an identity absent from a full
compare set is rejected outright, leaving the set's contents exactly
unchanged rather than truncated. -/
theorem compare_capacity_invariant (ops : List Nat) (id : Nat) :
    (runToggles ops).length ≤ MAX_COMPARE_ITEMS ∧
    (id ∉ runToggles ops → MAX_COMPARE_ITEMS ≤ (runToggles ops).length →
      toggleCompare id (runToggles ops) = runToggles ops) :=
  ⟨length_runToggles_le ops, fun habs hfull => toggleCompare_reject habs hfull⟩

/-- Witness for C2 at the toggle sequence `[7, 8, 9]` (which fills the
compare set) and the absent identity `5`: the full set stays within bound
and the toggle of `5` is rejected unchanged. -/
theorem compare_capacity_invariant_witness :
    runToggles [7, 8, 9] = [7, 8, 9] ∧
    (runToggles [7, 8, 9]).length ≤ MAX_COMPARE_ITEMS ∧
    toggleCompare 5 (runToggles [7, 8, 9]) = runToggles [7, 8, 9] :=
  ⟨by decide, (compare_capacity_invariant [7, 8, 9] 5).1,
    (compare_capacity_invariant [7, 8, 9] 5).2 (by decide) (by decide)⟩

/-- C4: the visible subset is the whole catalog in original order under the
`"all"` filter, and under any other filter exactly the order-preserving
sub-sequence of items whose category equals the filter — filtering never
reorders. -/
theorem visible_subset_is_filter (catalogItems : List Item) (f : String)
    (hf : f ≠ "all") :
    visibleData catalogItems "all" = catalogItems ∧
    visibleData catalogItems f =
      catalogItems.filter (fun item => item.category == f) ∧
    (visibleData catalogItems f).Sublist catalogItems := by
  refine ⟨by simp [visibleData], by simp [visibleData, hf], ?_⟩
  simp only [visibleData, hf, if_false]
  exact List.filter_sublist catalogItems

/-- Witness for C4 on the specification's three-item catalog with the
`"sofa"` filter: the visible subset is `[itemA, itemC]`, the matching
sub-sequence in original order. -/
theorem visible_subset_is_filter_witness :
    visibleData demoCatalog "sofa" = [itemA, itemC] ∧
    visibleData demoCatalog "all" = demoCatalog ∧
    visibleData demoCatalog "sofa" =
      demoCatalog.filter (fun item => item.category == "sofa") ∧
    (visibleData demoCatalog "sofa").Sublist demoCatalog :=
  ⟨by decide, (visible_subset_is_filter demoCatalog "sofa" (by decide)).1,
    (visible_subset_is_filter demoCatalog "sofa" (by decide)).2.1,
    (visible_subset_is_filter demoCatalog "sofa" (by decide)).2.2⟩

/-- C5: any sequence of filter changes leaves both selection sets exactly
unchanged — membership, and therefore the selection and cart markers any
render derives from them, survive hiding and re-revealing an item. -/
theorem filter_change_preserves_selections (st : AppState) (tags : List String) :
    (applyFilters tags st).compareIndices = st.compareIndices ∧
    (applyFilters tags st).cartIndices = st.cartIndices ∧
    (∀ id : Nat, jsSetHas (applyFilters tags st).compareIndices id
        = jsSetHas st.compareIndices id) ∧
    (∀ item : Item,
        buildCardElement (applyFilters tags st) item = buildCardElement st item) := by
  obtain ⟨h1, h2, h3⟩ := applyFilters_fields tags st
  exact ⟨h2, h3, fun id => by rw [h2],
    fun item => buildCardElement_congr item h1 h2 h3⟩

/-- C10: the two clear operations are independent of the other selection
set and of the filter: `clearComparisons` empties only the compare set,
`clearCart` empties only the cart set; catalog and active filter are
untouched by both. -/
theorem clear_operations_frame (st : AppState) :
    (clearComparisons st).cartIndices = st.cartIndices ∧
    (clearComparisons st).activeFilter = st.activeFilter ∧
    (clearComparisons st).catalogItems = st.catalogItems ∧
    (clearComparisons st).compareIndices = [] ∧
    (clearCart st).1.compareIndices = st.compareIndices ∧
    (clearCart st).1.activeFilter = st.activeFilter ∧
    (clearCart st).1.catalogItems = st.catalogItems ∧
    (clearCart st).1.cartIndices = [] :=
  ⟨rfl, rfl, rfl, rfl, rfl, rfl, rfl, rfl⟩

/-! ## Digit-string lemmas for the persisted cart -/

theorem isDigit_digitChar {d : Nat} (h : d < 10) : (digitChar d).isDigit = true := by
  interval_cases d <;> decide

theorem digitVal_digitChar {d : Nat} (h : d < 10) : digitVal (digitChar d) = d := by
  interval_cases d <;> decide

theorem natCharsAux_digits :
    ∀ (fuel n : Nat), ∀ c ∈ natCharsAux fuel n, c.isDigit = true := by
  intro fuel
  induction fuel with
  | zero => intro n c hc; simp [natCharsAux] at hc
  | succ f ih =>
    intro n c hc
    by_cases hn : n = 0
    · simp [natCharsAux, hn] at hc
    · simp only [natCharsAux, if_neg hn, List.mem_append,
        List.mem_singleton] at hc
      rcases hc with hc | hc
      · exact ih _ c hc
      · rw [hc]; exact isDigit_digitChar (Nat.mod_lt n (by norm_num))

theorem charsVal_append_digit (l : List Char) (c : Char) :
    charsVal (l ++ [c]) = charsVal l * 10 + digitVal c := by
  simp [charsVal, List.foldl_append]

theorem charsVal_natCharsAux :
    ∀ (fuel n : Nat), n ≤ fuel → charsVal (natCharsAux fuel n) = n := by
  intro fuel
  induction fuel with
  | zero =>
    intro n hn
    interval_cases n
    rfl
  | succ f ih =>
    intro n hn
    by_cases hz : n = 0
    · subst hz; rfl
    · have hdiv : n / 10 ≤ f := by
        have h1 : n / 10 < n := Nat.div_lt_self (Nat.pos_of_ne_zero hz) (by norm_num)
        omega
      simp only [natCharsAux, if_neg hz, charsVal_append_digit,
        ih (n / 10) hdiv, digitVal_digitChar (Nat.mod_lt n (by norm_num))]
      omega

theorem charsVal_natChars (n : Nat) : charsVal (natChars n) = n := by
  by_cases hz : n = 0
  · subst hz; rfl
  · rw [natChars, if_neg hz]
    exact charsVal_natCharsAux n n le_rfl

theorem natChars_digits (n : Nat) : ∀ c ∈ natChars n, c.isDigit = true := by
  intro c hc
  by_cases hz : n = 0
  · subst hz
    have hc0 : c = '0' := by simpa [natChars] using hc
    rw [hc0]; decide
  · rw [natChars, if_neg hz] at hc
    exact natCharsAux_digits n n c hc

theorem natChars_ne_nil (n : Nat) : natChars n ≠ [] := by
  by_cases hz : n = 0
  · subst hz; simp [natChars]
  · rw [natChars, if_neg hz]
    obtain ⟨f, rfl⟩ := Nat.exists_eq_succ_of_ne_zero hz
    simp [natCharsAux]

theorem takeWhile_append_of_not (p : Char → Bool) :
    ∀ (ds : List Char), (∀ x ∈ ds, p x = true) →
    ∀ (c : Char), p c = false → ∀ (rest : List Char),
      (ds ++ c :: rest).takeWhile p = ds ∧
      (ds ++ c :: rest).dropWhile p = c :: rest := by
  intro ds
  induction ds with
  | nil =>
    intro _ c hc rest
    simp [List.takeWhile_cons, List.dropWhile_cons, hc]
  | cons d ds ih =>
    intro hds c hc rest
    have hd : p d = true := hds d (List.mem_cons_self d ds)
    have hrest := ih (fun x hx => hds x (List.mem_cons_of_mem d hx)) c hc rest
    simp [List.takeWhile_cons, List.dropWhile_cons, hd, hrest.1, hrest.2]

theorem cartChars_ne_nil {l : List Nat} (h : l ≠ []) : cartChars l ≠ [] := by
  cases l with
  | nil => exact absurd rfl h
  | cons n rest =>
    cases rest with
    | nil => exact natChars_ne_nil n
    | cons m rest2 =>
      intro he
      exact natChars_ne_nil n (List.append_eq_nil.mp he).1

theorem isEmpty_eq_false_of_ne_nil {α : Type} {l : List α} (h : l ≠ []) :
    l.isEmpty = false := by
  cases l with
  | nil => exact absurd rfl h
  | cons a t => rfl

theorem parseItems_cartChars :
    ∀ (l : List Nat), l ≠ [] → ∀ (fuel : Nat), (cartChars l).length < fuel →
      parseItems fuel (cartChars l ++ [']']) = some l := by
  intro l
  induction l with
  | nil => intro h; exact absurd rfl h
  | cons n rest ih =>
    intro _ fuel hfuel
    have hie : (natChars n).isEmpty = false :=
      isEmpty_eq_false_of_ne_nil (natChars_ne_nil n)
    cases rest with
    | nil =>
      cases fuel with
      | zero => omega
      | succ f =>
        have hspan := takeWhile_append_of_not Char.isDigit (natChars n)
          (natChars_digits n) ']' (by decide) []
        show parseItems (f + 1) (natChars n ++ [']']) = some [n]
        simp only [parseItems, hspan.1, hspan.2, hie, Bool.false_eq_true,
          if_false, charsVal_natChars]
        simp
    | cons m rest2 =>
      cases fuel with
      | zero => omega
      | succ f =>
        have hspan := takeWhile_append_of_not Char.isDigit (natChars n)
          (natChars_digits n) ',' (by decide) (cartChars (m :: rest2) ++ [']'])
        have hlen1 : 0 < (natChars n).length :=
          List.length_pos.mpr (natChars_ne_nil n)
        have hcc : cartChars (n :: m :: rest2)
            = natChars n ++ ',' :: cartChars (m :: rest2) := rfl
        have hform : cartChars (n :: m :: rest2) ++ [']']
            = natChars n ++ ',' :: (cartChars (m :: rest2) ++ [']']) := by
          rw [hcc]; simp
        have hlen2 : (cartChars (m :: rest2)).length < f := by
          rw [hcc] at hfuel
          simp only [List.length_append, List.length_cons] at hfuel
          omega
        rw [hform]
        simp only [parseItems, hspan.1, hspan.2, hie, Bool.false_eq_true,
          if_false]
        rw [if_pos trivial, ih (List.cons_ne_nil m rest2) f hlen2]
        simp [charsVal_natChars]

theorem parseCart_serializeCart (l : List Nat) :
    parseCart (serializeCart l) = some l := by
  cases l with
  | nil => rfl
  | cons n rest =>
    have hcne : cartChars (n :: rest) ≠ [] :=
      cartChars_ne_nil (List.cons_ne_nil n rest)
    have hne : cartChars (n :: rest) ++ [']'] ≠ [']'] := by
      intro he
      have hlen : (cartChars (n :: rest)).length + 1 = 1 := by
        simpa [List.length_append] using congrArg List.length he
      exact hcne (List.length_eq_zero.mp (by omega))
    show parseCart (String.mk ('[' :: (cartChars (n :: rest) ++ [']']))) = some (n :: rest)
    simp only [parseCart, if_pos rfl, if_neg hne]
    apply parseItems_cartChars (n :: rest) (List.cons_ne_nil n rest)
    simp [List.length_append]

theorem setFromList_of_nodup {l : List Nat} (hnd : l.Nodup) : setFromList l = l := by
  suffices h : ∀ (l acc : List Nat), l.Nodup → (∀ x ∈ l, x ∉ acc) →
      l.foldl jsSetAdd acc = acc ++ l by
    simpa [setFromList] using h l [] hnd (by simp)
  intro l
  induction l with
  | nil => intro acc _ _; simp
  | cons x t ih =>
    intro acc hnd hdisj
    rw [List.foldl_cons, jsSetAdd_of_not_mem (hdisj x (List.mem_cons_self x t))]
    rw [ih (acc ++ [x]) (List.nodup_cons.mp hnd).2 ?_]
    · simp
    · intro y hy
      simp only [List.mem_append, List.mem_singleton]
      rintro (hacc | rfl)
      · exact hdisj y (List.mem_cons_of_mem x hy) hacc
      · exact (List.nodup_cons.mp hnd).1 hy

theorem restoreCart_serializeCart {c : List Nat} (hnd : c.Nodup) :
    restoreCart (some (serializeCart c)) = c := by
  simp only [restoreCart, parseCart_serializeCart]
  exact setFromList_of_nodup hnd

/-! ## Double-toggle lemmas -/

theorem jsSetDelete_append_singleton_perm {s : List Nat} {id : Nat}
    (hnd : s.Nodup) (h : id ∈ s) :
    (jsSetDelete s id ++ [id]).Perm s := by
  rw [jsSetDelete_eq_erase hnd]
  exact (List.perm_append_singleton id (s.erase id)).trans
    (List.perm_cons_erase h).symm

theorem jsSetDelete_append_cancel {s : List Nat} {id : Nat} (h : id ∉ s) :
    jsSetDelete (s ++ [id]) id = s := by
  rw [jsSetDelete, List.filter_append]
  have h1 : s.filter (fun y => y != id) = s := jsSetDelete_of_not_mem h
  have h2 : [id].filter (fun y => y != id) = [] := by simp
  rw [h1, h2, List.append_nil]

theorem toggleCartSet_of_mem {s : List Nat} {id : Nat} (h : id ∈ s) :
    toggleCartSet id s = jsSetDelete s id := by
  simp [toggleCartSet, jsSetHas_iff.mpr h]

theorem toggleCartSet_of_not_mem {s : List Nat} {id : Nat} (h : id ∉ s) :
    toggleCartSet id s = s ++ [id] := by
  simp [toggleCartSet, jsSetHas_eq_false.mpr h, jsSetAdd_of_not_mem h]

theorem nodup_toggleCartSet {s : List Nat} (hnd : s.Nodup) (id : Nat) :
    (toggleCartSet id s).Nodup := by
  unfold toggleCartSet
  split
  · exact nodup_jsSetDelete hnd id
  · exact nodup_jsSetAdd hnd id

theorem toggleCartSet_pair_perm {s : List Nat} (hnd : s.Nodup) (id : Nat) :
    (toggleCartSet id (toggleCartSet id s)).Perm s := by
  by_cases hm : id ∈ s
  · rw [toggleCartSet_of_mem hm,
      toggleCartSet_of_not_mem not_mem_jsSetDelete]
    exact jsSetDelete_append_singleton_perm hnd hm
  · rw [toggleCartSet_of_not_mem hm,
      toggleCartSet_of_mem (by simp), jsSetDelete_append_cancel hm]

/-! ## Claim theorems (toggle pairs, persistence) -/

/-- C6: a `toggleCompare` immediately followed by a second `toggleCompare`
of the same identity restores the compare set to exactly its previous
contents, for every state satisfying the set's invariants (no duplicates,
within the capacity bound). -/
theorem compare_toggle_pair_restores_set (s : List Nat) (id : Nat)
    (hnd : s.Nodup) (hlen : s.length ≤ MAX_COMPARE_ITEMS) :
    (toggleCompare id (toggleCompare id s)).Perm s ∧
    ∀ x : Nat, x ∈ toggleCompare id (toggleCompare id s) ↔ x ∈ s := by
  have hmax : MAX_COMPARE_ITEMS = 3 := rfl
  have main : (toggleCompare id (toggleCompare id s)).Perm s := by
    by_cases hm : id ∈ s
    · rw [toggleCompare_of_mem hm]
      have hpos : 0 < s.length := List.length_pos.mpr (List.ne_nil_of_mem hm)
      have hlt : (jsSetDelete s id).length < MAX_COMPARE_ITEMS := by
        rw [length_jsSetDelete_of_mem hnd hm, hmax]
        rw [hmax] at hlen
        omega
      rw [toggleCompare_of_not_mem_of_lt not_mem_jsSetDelete hlt]
      exact jsSetDelete_append_singleton_perm hnd hm
    · rcases Nat.lt_or_ge s.length MAX_COMPARE_ITEMS with hlt | hge
      · rw [toggleCompare_of_not_mem_of_lt hm hlt,
          toggleCompare_of_mem (by simp), jsSetDelete_append_cancel hm]
      · rw [toggleCompare_reject hm hge, toggleCompare_reject hm hge]
  exact ⟨main, fun x => main.mem_iff⟩

/-- Witness for C6: toggling identity `1` twice on the compare set
`[0, 1, 2]` yields `[0, 2, 1]`, whose contents are exactly the previous
contents. -/
theorem compare_toggle_pair_restores_set_witness :
    toggleCompare 1 (toggleCompare 1 [0, 1, 2]) = [0, 2, 1] ∧
    (toggleCompare 1 (toggleCompare 1 [0, 1, 2])).Perm [0, 1, 2] ∧
    ∀ x : Nat, x ∈ toggleCompare 1 (toggleCompare 1 [0, 1, 2]) ↔ x ∈ [0, 1, 2] :=
  ⟨by decide,
    (compare_toggle_pair_restores_set [0, 1, 2] 1 (by decide) (by decide)).1,
    (compare_toggle_pair_restores_set [0, 1, 2] 1 (by decide) (by decide)).2⟩

/-- C7: two successive `toggleCartItem` calls on the same identity leave
the cart set's contents exactly unchanged, and each of the two calls
writes the full serialized new cart set — each write alone parses back to
the entire set, not a delta. -/
theorem cart_toggle_pair_and_writes (st : AppState) (id : Nat)
    (hnd : st.cartIndices.Nodup) :
    ((toggleCartItem id (toggleCartItem id st).1).1.cartIndices).Perm st.cartIndices ∧
    (∀ x : Nat, x ∈ (toggleCartItem id (toggleCartItem id st).1).1.cartIndices ↔
        x ∈ st.cartIndices) ∧
    (toggleCartItem id st).2 =
      serializeCart ((toggleCartItem id st).1.cartIndices) ∧
    (toggleCartItem id (toggleCartItem id st).1).2 =
      serializeCart ((toggleCartItem id (toggleCartItem id st).1).1.cartIndices) ∧
    parseCart ((toggleCartItem id st).2) =
      some ((toggleCartItem id st).1.cartIndices) ∧
    parseCart ((toggleCartItem id (toggleCartItem id st).1).2) =
      some ((toggleCartItem id (toggleCartItem id st).1).1.cartIndices) := by
  have hperm : ((toggleCartItem id (toggleCartItem id st).1).1.cartIndices).Perm
      st.cartIndices := toggleCartSet_pair_perm hnd id
  exact ⟨hperm, fun x => hperm.mem_iff, rfl, rfl,
    parseCart_serializeCart _, parseCart_serializeCart _⟩

/-- Witness for C7 on a fresh load: toggling identity `1` into the empty
cart and out again leaves the cart empty, with the two writes being the
full serializations `[1]` and `[]`. -/
theorem cart_toggle_pair_and_writes_witness :
    (toggleCartItem 1 (toggleCartItem 1 loadState).1).1.cartIndices = [] ∧
    (toggleCartItem 1 loadState).2 = "[1]" ∧
    (toggleCartItem 1 (toggleCartItem 1 loadState).1).2 = "[]" ∧
    ((toggleCartItem 1 (toggleCartItem 1 loadState).1).1.cartIndices).Perm
      loadState.cartIndices ∧
    parseCart ((toggleCartItem 1 loadState).2) =
      some ((toggleCartItem 1 loadState).1.cartIndices) :=
  ⟨by decide, by decide, by decide,
    (cart_toggle_pair_and_writes loadState 1 (by decide)).1,
    (cart_toggle_pair_and_writes loadState 1 (by decide)).2.2.2.2.1⟩

/-- C8: cart persistence round-trips: the full serialized list written by
a `toggleCartItem` mutation, read back at the next session load, restores
exactly the same cart set, with absence of a persisted value restoring the
empty set. -/
theorem cart_persistence_restores (st : AppState) (id : Nat)
    (hnd : st.cartIndices.Nodup) :
    restoreCart (some ((toggleCartItem id st).2)) =
      (toggleCartItem id st).1.cartIndices ∧
    restoreCart none = [] := by
  constructor
  · have hw : (toggleCartItem id st).2 =
        serializeCart ((toggleCartItem id st).1.cartIndices) := rfl
    rw [hw]
    exact restoreCart_serializeCart (nodup_toggleCartSet hnd id)
  · rfl

/-- Witness for C8, the specification's concrete scenario: `toggleCart(1)`
on an empty cart persists the single-element list `[1]`, and a load seeing
that value restores the cart set `[1]`. -/
theorem cart_persistence_restores_witness :
    (toggleCartItem 1 loadState).1.cartIndices = [1] ∧
    (toggleCartItem 1 loadState).2 = "[1]" ∧
    restoreCart (some "[1]") = [1] ∧
    restoreCart (some ((toggleCartItem 1 loadState).2)) =
      (toggleCartItem 1 loadState).1.cartIndices :=
  ⟨by decide, by decide, by decide,
    (cart_persistence_restores loadState 1 (by decide)).1⟩

/-! ## Identity-resolution lemmas -/

theorem jsIndexOf_get (catalogItems : List Item)
    (href : (catalogItems.map Item.ref).Nodup) :
    ∀ (i : Nat) (h : i < catalogItems.length),
      jsIndexOf catalogItems (catalogItems.get ⟨i, h⟩) = some i := by
  induction catalogItems with
  | nil => intro i h; simp at h
  | cons a t ih =>
    have hnd : a.ref ∉ t.map Item.ref ∧ (t.map Item.ref).Nodup :=
      List.nodup_cons.mp (by simpa using href)
    intro i h
    cases i with
    | zero =>
      show jsIndexOf (a :: t) a = some 0
      simp [jsIndexOf, List.findIdx?_cons]
    | succ j =>
      have hj : j < t.length := by simpa using h
      have hget : (a :: t).get ⟨j + 1, h⟩ = t.get ⟨j, hj⟩ := rfl
      have hne : (a.ref == (t.get ⟨j, hj⟩).ref) = false := by
        rw [beq_eq_false_iff_ne]
        intro he
        exact hnd.1 (he ▸ List.mem_map_of_mem Item.ref (List.get_mem t j hj))
      have hneq : ¬((a.ref == (t.get ⟨j, hj⟩).ref) = true) := by
        rw [hne]; exact Bool.false_ne_true
      rw [hget]
      show List.findIdx? (fun x => x.ref == (t.get ⟨j, hj⟩).ref) (a :: t) = some (j + 1)
      rw [List.findIdx?_cons, if_neg hneq, List.findIdx?_succ]
      have hrec := ih hnd.2 j hj
      rw [jsIndexOf] at hrec
      rw [hrec]
      rfl

theorem mem_visibleData_mem_catalog {catalogItems : List Item} {f : String}
    {item : Item} (h : item ∈ visibleData catalogItems f) :
    item ∈ catalogItems := by
  unfold visibleData at h
  split at h
  · exact h
  · exact List.mem_of_mem_filter h

/-! ## Claim theorem: rendered identity -/

/-- C1: in every render, the identity attached to a rendered card is
exactly its item's position in the original collection: `indexOf` is a
reference-identity scan, so under the load-time guarantee that distinct
catalog positions hold distinct objects, every position resolves to
itself, two items at different positions — even content-identical ones —
never resolve to the same identity, and every card of the rendered
visible subset carries its item's original position. -/
theorem rendered_identity_is_original_position (st : AppState)
    (href : (st.catalogItems.map Item.ref).Nodup) :
    (∀ (i : Nat) (h : i < st.catalogItems.length),
        (buildCardElement st (st.catalogItems.get ⟨i, h⟩)).dataIndex = some i) ∧
    (∀ (i j : Nat) (hi : i < st.catalogItems.length)
        (hj : j < st.catalogItems.length), i ≠ j →
        (buildCardElement st (st.catalogItems.get ⟨i, hi⟩)).dataIndex ≠
          (buildCardElement st (st.catalogItems.get ⟨j, hj⟩)).dataIndex) ∧
    (∀ card ∈ renderGalleryGrid st,
        ∃ (i : Nat) (h : i < st.catalogItems.length),
          card = buildCardElement st (st.catalogItems.get ⟨i, h⟩) ∧
          card.dataIndex = some i) := by
  have hidx : ∀ (i : Nat) (h : i < st.catalogItems.length),
      (buildCardElement st (st.catalogItems.get ⟨i, h⟩)).dataIndex = some i := by
    intro i h
    have hfound := jsIndexOf_get st.catalogItems href i h
    unfold buildCardElement
    rw [hfound]
  refine ⟨hidx, ?_, ?_⟩
  · intro i j hi hj hne
    rw [hidx i hi, hidx j hj]
    simp [hne]
  · intro card hcard
    obtain ⟨item, hitem, rfl⟩ := List.mem_map.mp hcard
    have hmem : item ∈ st.catalogItems := mem_visibleData_mem_catalog hitem
    obtain ⟨⟨i, hlt⟩, hget⟩ := List.mem_iff_get.mp hmem
    exact ⟨i, hlt, by rw [hget], hget ▸ hidx i hlt⟩

/-- Witness for C1 on a catalog whose first and third entries are
content-identical but distinct loaded objects: each resolves to its own
position, and the two identities differ. -/
theorem rendered_identity_is_original_position_witness :
    (buildCardElement dupState itemA).dataIndex = some 0 ∧
    (buildCardElement dupState itemTwin).dataIndex = some 2 ∧
    (buildCardElement dupState (dupCatalog.get ⟨0, by decide⟩)).dataIndex ≠
      (buildCardElement dupState (dupCatalog.get ⟨2, by decide⟩)).dataIndex :=
  ⟨by decide, by decide,
    (rendered_identity_is_original_position dupState (by decide)).2.1 0 2
      (by decide) (by decide) (by decide)⟩

/-! ## Comparison-view lemmas -/

theorem lookupSelected_spec (catalogItems : List Item) :
    ∀ (ids : List Nat) (objs : List Item),
      lookupSelected catalogItems ids = some objs →
      objs.length = ids.length ∧
      ∀ (k : Nat) (hk : k < ids.length) (hk2 : k < objs.length),
        catalogItems[ids.get ⟨k, hk⟩]? = some (objs.get ⟨k, hk2⟩) := by
  intro ids
  induction ids with
  | nil =>
    intro objs h
    simp only [lookupSelected, Option.some.injEq] at h
    subst h
    exact ⟨rfl, fun k hk => absurd hk (Nat.not_lt_zero k)⟩
  | cons idx rest ih =>
    intro objs h
    cases e1 : catalogItems[idx]? with
    | none =>
      rw [lookupSelected, e1] at h
      cases e2 : lookupSelected catalogItems rest <;> rw [e2] at h <;> simp at h
    | some item =>
      cases e2 : lookupSelected catalogItems rest with
      | none => rw [lookupSelected, e1, e2] at h; simp at h
      | some items =>
        rw [lookupSelected, e1, e2] at h
        simp only [Option.some.injEq] at h
        subst h
        obtain ⟨hlen, hpt⟩ := ih items e2
        refine ⟨by simp [hlen], ?_⟩
        intro k hk hk2
        cases k with
        | zero => simpa using e1
        | succ k2 =>
          have hk' : k2 < rest.length := by simpa using hk
          have hk2' : k2 < items.length := by simpa using hk2
          simpa using hpt k2 hk' hk2'

/-- C9: the comparison view maps each selected identity to its item by
direct positional lookup into the original collection and renders one
column per selected item in the compare set's insertion order: the table's
field rows are the field values of the looked-up items, in set order. -/
theorem comparison_view_positional_insertion_order (st : AppState)
    (objs : List Item)
    (h : lookupSelected st.catalogItems st.compareIndices = some objs)
    (hne : objs ≠ []) :
    openComparisonModal st = some
      { headers := objs.map Item.product_name
        prices := objs.map Item.price
        widths := objs.map (fun i => i.dimensions.width)
        depths := objs.map (fun i => i.dimensions.depth_length)
        heights := objs.map (fun i => i.dimensions.height)
        links := objs.map Item.url } ∧
    objs.length = st.compareIndices.length ∧
    ∀ (k : Nat) (hk : k < st.compareIndices.length) (hk2 : k < objs.length),
      st.catalogItems[st.compareIndices.get ⟨k, hk⟩]? = some (objs.get ⟨k, hk2⟩) := by
  obtain ⟨hlen, hpt⟩ := lookupSelected_spec st.catalogItems st.compareIndices objs h
  refine ⟨?_, hlen, hpt⟩
  rw [openComparisonModal]
  rw [h]
  unfold generateComparisonTableHTML
  simp only [isEmpty_eq_false_of_ne_nil hne, Bool.false_eq_true, if_false]

/-- Witness for C9, the specification's §8 scenario: compare set `[0, 2]`
over the three-item catalog yields a two-column table with item A's column
before item C's column, each fetched from the original collection by
position. -/
theorem comparison_view_positional_insertion_order_witness :
    openComparisonModal demoState = some
      { headers := ["Apollo Sofa", "Cosmos Sofa"]
        prices := ["$1,000.00", "$300.00"]
        widths := ["80", "80"]
        depths := ["35", "35"]
        heights := ["30", "30"]
        links := ["https://example.com/a", "https://example.com/c"] } ∧
    [itemA, itemC].length = demoState.compareIndices.length ∧
    demoState.catalogItems[demoState.compareIndices.get ⟨0, by decide⟩]? = some itemA :=
  ⟨by decide,
    (comparison_view_positional_insertion_order demoState [itemA, itemC]
      (by decide) (by decide)).2.1,
    (comparison_view_positional_insertion_order demoState [itemA, itemC]
      (by decide) (by decide)).2.2 0 (by decide) (by decide)⟩

/-! ## Claim theorem: cart total at the range price -/

/-- C3 (evaluation of the code at the specification's failing input): the
strip-then-parse order of `calculateCartTotal` mashes the two endpoints of
the range price `"$2,299 - $3,099"` into the single digit string
`"22993099"`, so the total over `"$1,000.00"` and that range price is
`1000 + 22993099 = 22994099`, not the `1000 + 2299 = 3299` that the
first-price rule (stated by the code's own comments) would give. -/
theorem cart_total_mashes_range_prices :
    calculateCartTotal [itemA, itemRange] = 22994099 ∧
    calculateCartTotal [itemA, itemRange] ≠ 3299 := by
  have h : calculateCartTotal [itemA, itemRange] = 22994099 := by
    simp +decide [calculateCartTotal, cleanPriceStr, parseFloat, charsVal,
      digitVal, itemA, itemRange]
    norm_num
  exact ⟨h, by rw [h]; norm_num⟩

end FurnitureCatalog
